import Mathlib

/-!
Verification development for the gradient-descent planner of mujoco_mpc
(`mjpc/planners/gradient/planner.cc`).

The planner's improvement loop (`GradientPlanner::OptimizePolicy`) is embedded
as a pure function over exact numbers (`ℤ` stands in for the C `double`:
every property claimed about the loop is order-theoretic).  External collaborators that are not
part of this repository's sources (the physics rollout, the gradient solver,
the spline mapping, `LogScale`) are supplied as oracle parameters of the
model, collected in the `Externals` structure; everything else follows the
source line by line.  Real-valued collaborators whose code is absent from the
sources (`LogScale`, `PowerSequence`, `Task::CostValue`) are additionally
modelled from the specification over `ℝ` in dedicated sections, and the
`ThreadPool` barrier used by `GradientPlanner::Rollouts` is modelled as a
transition system.
-/

namespace Mjpc

/-- A rollout trajectory: the scalar `total_return` (cost) together with an
opaque payload standing for the per-step states/actions/residuals produced by
the external `Trajectory::Rollout` collaborator. -/
structure Trajectory where
  total_return : ℤ
  payload : List ℤ
deriving DecidableEq

/-- mju_addScl over parameter vectors: `p + s * u`, entrywise.  A missing
entry of the update vector acts as `0` (in the source both vectors always have
length `nu * num_spline_points`). -/
def addScl : List ℤ → List ℤ → ℤ → List ℤ
  | [], _, _ => []
  | a :: p, [], s => a :: addScl p [] s
  | a :: p, b :: u, s => (a + s * b) :: addScl p u s

/-- Adding `0` times any update leaves the parameters unchanged: the zero-step
candidate is the identity candidate. -/
theorem addScl_zero (p u : List ℤ) : addScl p u 0 = p := by
  induction p generalizing u with
  | nil => cases u <;> rfl
  | cons a p ih =>
    cases u with
    | nil => simp [addScl, ih]
    | cons b u => simp [addScl, ih]

/-- The external collaborators of `GradientPlanner::OptimizePolicy`, exactly
the calls the source makes outside this repository:
* `resample`: the effect of `ResamplePolicy` on the parameter vector
  (spline evaluation at the shifted knot times; interpolation code external);
* `rollout w p`: `Trajectory::Rollout` of a policy with parameters `p` using
  the scratch buffer `data_[w]` of worker `w` (deterministic per the spec's
  §4.4 contract, for a fixed model/task/state/time within one call);
* `grad p t`: the composite of `ModelDerivatives::Compute`,
  `CostDerivatives::Compute`, `Gradient::Compute` and the spline-mapping
  back-map, returning the solver status and the `parameter_update` direction;
* `logStep`: the values written by `LogScale(improvement_step, 1.0,
  settings.min_step_size, num_trajectory - 1)`;
* `assign k i`: the worker that executes candidate `i`'s rollout task in
  iteration `k` (`ThreadPool::WorkerId()` at execution time). -/
@[ext]
structure Externals where
  resample : List ℤ → List ℤ
  rollout : ℕ → List ℤ → Trajectory
  grad : List ℤ → Trajectory → ℤ × List ℤ
  logStep : ℕ → ℤ
  assign : ℕ → ℕ → ℕ

/-- The wall-clock stage durations measured by the `std::chrono` timer reads
in `OptimizePolicy`: the nominal stage, the per-iteration model-derivative,
cost-derivative, gradient and rollouts stages, and the policy-update stage. -/
structure Durations where
  durNominal : ℤ
  durModel : ℕ → ℤ
  durCost : ℕ → ℤ
  durGrad : ℕ → ℤ
  durRollouts : ℕ → ℤ
  durPolicyUpdate : ℤ

/-- The per-stage timing counters of the planner
(`nominal_compute_time` … `policy_update_compute_time`). -/
structure Timers where
  nominalT : ℤ
  modelDerivT : ℤ
  costDerivT : ℤ
  gradT : ℤ
  rolloutsT : ℤ
  policyUpdateT : ℤ
deriving DecidableEq

/-- The mutable state carried through the improvement loop of
`OptimizePolicy`:
* `cands i` = `candidate_policy[i].parameters` (index 0 is the working slot);
* `trajs i` = `trajectory[i]`;
* `cBest` = the running best cost `c_best`;
* `winner` = the `winner` member;
* `failed` = whether the call has returned early on a nonzero gradient
  status.
The local timer accumulators (`model_derivative_time` …) are pure functions
of this trace and are tracked separately by `localAccum`. -/
structure LoopState where
  cands : ℕ → List ℤ
  trajs : ℕ → Trajectory
  cBest : ℤ
  winner : ℕ
  failed : Bool

/-- Line-search step sizes: `LogScale` fills indices `0 … N-2`, then
`improvement_step[num_trajectory - 1] = 0.0` overrides the last slot
(planner.cc lines 274-276). -/
def stepSizes (E : Externals) (N : ℕ) (i : ℕ) : ℤ :=
  if i = N - 1 then 0 else E.logStep i

/-- The gradient solve of one iteration: status and `parameter_update`,
computed from the working policy `candidate_policy[0]` and the nominal
trajectory `trajectory[0]` (planner.cc lines 193-245). -/
def gradAt (E : Externals) (s : LoopState) : ℤ × List ℤ :=
  E.grad (s.cands 0) (s.trajs 0)

/-- Candidate `j`'s parameters in one iteration: the working parameters plus
`improvement_step[j]` times the update direction (the in-place `mju_addScl`
inside the scheduled rollout task, planner.cc lines 401-405). -/
def candAt (E : Externals) (N : ℕ) (s : LoopState) (j : ℕ) : List ℤ :=
  addScl (s.cands 0) (gradAt E s).2 (stepSizes E N j)

/-- Candidate `j`'s rollout trajectory in iteration `k`, produced on the
worker `assign k i` chose (planner.cc lines 408-417). -/
def candTrajAt (E : Externals) (N : ℕ) (k : ℕ) (s : LoopState) (j : ℕ) :
    Trajectory :=
  E.rollout (E.assign k j) (candAt E N s j)

/-- The winner scan of planner.cc lines 283-292, processing candidate index
`j = n-1` down to `0`: strictly lower cost replaces the running pair
(best cost, winner index). -/
def selectScan (c : ℕ → ℤ) : ℕ → ℤ × ℕ → ℤ × ℕ
  | 0, bw => bw
  | j + 1, bw => selectScan c j (if c j < bw.1 then (c j, j) else bw)

/-- Winner selection for one iteration: `winner` is initialized to
`num_trajectory - 1` (planner.cc line 282), then the scan runs. -/
def selectWinner (c : ℕ → ℤ) (N : ℕ) (b : ℤ) : ℤ × ℕ :=
  selectScan c N (b, N - 1)

/-- One iteration of the improvement loop (planner.cc lines 187-308):
derivative stages and their timers, gradient solve, early return on nonzero
status, candidate generation, parallel rollouts, winner scan, and folding the
winner into slot 0 (`CopyParametersFrom` / `trajectory[0] = trajectory[winner]`). -/
def OptimizeIteration (E : Externals) (N : ℕ) (k : ℕ) (s : LoopState) :
    LoopState :=
  if s.failed then s else
  if (gradAt E s).1 = 0 then
    let c : ℕ → Trajectory := candTrajAt E N k s
    let r := selectWinner (fun j => (c j).total_return) N s.cBest
    { s with
      cands := fun i =>
        if i = 0 then candAt E N s r.2
        else if i < N then candAt E N s i else s.cands i
      trajs := fun i =>
        if i = 0 then c r.2
        else if i < N then c i else s.trajs i
      cBest := r.1
      winner := r.2 }
  else
    { s with failed := true }

/-- The state entering the loop: `candidate_policy[0]` holds the resampled
nominal policy, `trajectory[0]` its rollout, `c_best = c_prev`; the remaining
pool slots and the `winner` member keep their values from before the call
(planner.cc lines 164-186). -/
def initLoopState (E : Externals) (nominal : List ℤ)
    (priorCands : ℕ → List ℤ) (priorTrajs : ℕ → Trajectory)
    (priorWinner : ℕ) : LoopState :=
  let base := E.resample nominal
  let t0 := E.rollout 0 base
  { cands := fun i => if i = 0 then base else priorCands i
    trajs := fun i => if i = 0 then t0 else priorTrajs i
    cBest := t0.total_return
    winner := priorWinner
    failed := false }

/-- The loop state after `k` iterations of the `for (int i = 0; i <
settings.max_rollout; i++)` loop. -/
def loopState (E : Externals) (N : ℕ) (s0 : LoopState) : ℕ → LoopState
  | 0 => s0
  | k + 1 => OptimizeIteration E N k (loopState E N s0 k)

/-- `c_prev`: the total return of the nominal rollout of the resampled policy
(planner.cc line 178). -/
def cPrevOf (E : Externals) (nominal : List ℤ) : ℤ :=
  (E.rollout 0 (E.resample nominal)).total_return

/-- The values of the four local in-loop timer accumulators
(`model_derivative_time`, `cost_derivative_time`, `gradient_time`,
`rollouts_time`) after `k` loop indices: an iteration entered before the
abort accumulates its model/cost/gradient stage durations; its rollouts
duration is accumulated only if its gradient solve returned status 0. -/
def localAccum (E : Externals) (N : ℕ) (s0 : LoopState) (D : Durations) :
    ℕ → ℤ × ℤ × ℤ × ℤ
  | 0 => (0, 0, 0, 0)
  | k + 1 =>
    let p := localAccum E N s0 D k
    if (loopState E N s0 k).failed then p
    else
      (p.1 + D.durModel k, p.2.1 + D.durCost k, p.2.2.1 + D.durGrad k,
        p.2.2.2 +
          if (gradAt E (loopState E N s0 k)).1 = 0 then D.durRollouts k
          else 0)

/-- The observable outcome of one `OptimizePolicy` call:
* `policy`: the nominal policy parameters after the call;
* `published`: whether the final `policy.CopyParametersFrom` write executed;
* `winner`: the `winner` member after the call;
* `cands`, `trajs`, `cBest`, `cPrev`: final pool contents and costs;
* `timers`: the per-stage timing counter members after the call;
* `locals`: the values held by the call's local timer variables when it
  returned (discarded on the abort path). -/
structure OptResult where
  policy : List ℤ
  published : Bool
  winner : ℕ
  cands : ℕ → List ℤ
  trajs : ℕ → Trajectory
  cBest : ℤ
  cPrev : ℤ
  timers : Timers
  locals : Timers

/-- `GradientPlanner::OptimizePolicy` (planner.cc lines 147-337).  The clamp
`num_trajectory = mju_min(num_trajectory, kMaxTrajectory)` of line 158 is the
`min numTrajReq kMax`.  The locking of lines 167/320, `ResizeMjData`, and the
scalar diagnostics of lines 299-302 (`step_size`, `expected`, `improvement`,
`surprise`) have no bearing on the modelled observables and are not tracked. -/
def OptimizePolicy (E : Externals) (D : Durations)
    (maxRollout numTrajReq kMax : ℕ)
    (nominal : List ℤ) (priorCands : ℕ → List ℤ)
    (priorTrajs : ℕ → Trajectory) (priorWinner : ℕ)
    (priorTimers : Timers) : OptResult :=
  let N := min numTrajReq kMax
  let s0 := initLoopState E nominal priorCands priorTrajs priorWinner
  let cPrev := s0.cBest
  let sF := loopState E N s0 maxRollout
  let acc := localAccum E N s0 D maxRollout
  if sF.failed then
    { policy := nominal
      published := false
      winner := sF.winner
      cands := sF.cands
      trajs := sF.trajs
      cBest := sF.cBest
      cPrev := cPrev
      timers := priorTimers
      locals :=
        { nominalT := D.durNominal
          modelDerivT := acc.1
          costDerivT := acc.2.1
          gradT := acc.2.2.1
          rolloutsT := acc.2.2.2
          policyUpdateT := 0 } }
  else
    let w := if cPrev ≤ sF.cBest then N - 1 else sF.winner
    let fin : Timers :=
      { nominalT := D.durNominal
        modelDerivT := acc.1
        costDerivT := acc.2.1
        gradT := acc.2.2.1
        rolloutsT := acc.2.2.2
        policyUpdateT := D.durPolicyUpdate }
    { policy := sF.cands w
      published := true
      winner := w
      cands := sF.cands
      trajs := sF.trajs
      cBest := sF.cBest
      cPrev := cPrev
      timers := fin
      locals := fin }

/-! ### Characterization of the winner scan -/

/-- Full characterization of the downward scan: either no candidate among
indices `0 … n-1` is strictly below the incoming best and the running pair is
returned unchanged, or some candidate is strictly below it, and then the scan
returns the minimum candidate cost together with the highest index attaining
it. -/
theorem selectScan_spec (c : ℕ → ℤ) (n : ℕ) (b : ℤ) (w : ℕ) :
    ((∀ j, j < n → ¬ c j < b) ∧ selectScan c n (b, w) = (b, w)) ∨
    ((∃ j, j < n ∧ c j < b) ∧
      (selectScan c n (b, w)).2 < n ∧
      c (selectScan c n (b, w)).2 = (selectScan c n (b, w)).1 ∧
      (selectScan c n (b, w)).1 < b ∧
      (∀ j, j < n → (selectScan c n (b, w)).1 ≤ c j) ∧
      (∀ j, j < n → c j = (selectScan c n (b, w)).1 →
        j ≤ (selectScan c n (b, w)).2)) := by
  induction n generalizing b w with
  | zero => exact Or.inl ⟨fun j hj => absurd hj (Nat.not_lt_zero j), rfl⟩
  | succ n ih =>
    by_cases h : c n < b
    · have hsc : selectScan c (n + 1) (b, w) = selectScan c n (c n, n) := by
        simp [selectScan, h]
      rw [hsc]
      rcases ih (c n) n with ⟨hnone, heq⟩ | ⟨⟨j0, hj0, hj0lt⟩, h2, h3, h4, h5, h6⟩
      · rw [heq]
        refine Or.inr ⟨⟨n, Nat.lt_succ_self n, h⟩, Nat.lt_succ_self n, rfl, h,
          ?_, ?_⟩
        · intro j hj
          rcases Nat.lt_succ_iff_lt_or_eq.mp hj with hj' | hj'
          · exact le_of_not_lt (hnone j hj')
          · exact le_of_eq (congrArg c hj'.symm)
        · intro j hj _
          exact Nat.lt_succ_iff.mp hj
      · refine Or.inr ⟨⟨j0, Nat.lt_succ_of_lt hj0, hj0lt.trans h⟩,
          Nat.lt_succ_of_lt h2, h3, h4.trans h, ?_, ?_⟩
        · intro j hj
          rcases Nat.lt_succ_iff_lt_or_eq.mp hj with hj' | hj'
          · exact h5 j hj'
          · rw [hj']
            exact le_of_lt h4
        · intro j hj hje
          rcases Nat.lt_succ_iff_lt_or_eq.mp hj with hj' | hj'
          · exact h6 j hj' hje
          · rw [hj'] at hje
            exact absurd h4 (by rw [← hje]; exact lt_irrefl _)
    · have hsc : selectScan c (n + 1) (b, w) = selectScan c n (b, w) := by
        simp [selectScan, h]
      rw [hsc]
      rcases ih b w with ⟨hnone, heq⟩ | ⟨⟨j0, hj0, hj0lt⟩, h2, h3, h4, h5, h6⟩
      · refine Or.inl ⟨?_, heq⟩
        intro j hj
        rcases Nat.lt_succ_iff_lt_or_eq.mp hj with hj' | hj'
        · exact hnone j hj'
        · rw [hj']
          exact h
      · refine Or.inr ⟨⟨j0, Nat.lt_succ_of_lt hj0, hj0lt⟩,
          Nat.lt_succ_of_lt h2, h3, h4, ?_, ?_⟩
        · intro j hj
          rcases Nat.lt_succ_iff_lt_or_eq.mp hj with hj' | hj'
          · exact h5 j hj'
          · rw [hj']
            exact le_of_lt (h4.trans_le (le_of_not_lt h))
        · intro j hj hje
          rcases Nat.lt_succ_iff_lt_or_eq.mp hj with hj' | hj'
          · exact h6 j hj' hje
          · rw [hj'] at hje
            rw [← hje] at h4
            exact absurd h4 h

/-- The scanned best cost never exceeds the incoming best cost. -/
theorem selectWinner_fst_le (c : ℕ → ℤ) (N : ℕ) (b : ℤ) :
    (selectWinner c N b).1 ≤ b := by
  rcases selectScan_spec c N b (N - 1) with ⟨_, heq⟩ | ⟨_, _, _, h4, _, _⟩
  · rw [selectWinner, heq]
  · exact le_of_lt h4

/-- A common lower bound of the incoming best and all candidates bounds the
scanned best cost. -/
theorem selectWinner_fst_lower (c : ℕ → ℤ) (N : ℕ) (b x : ℤ)
    (hb : x ≤ b) (hc : ∀ j, j < N → x ≤ c j) :
    x ≤ (selectWinner c N b).1 := by
  rcases selectScan_spec c N b (N - 1) with ⟨_, heq⟩ | ⟨_, h2, h3, _, _, _⟩
  · rw [selectWinner, heq]; exact hb
  · rw [selectWinner, ← h3]; exact hc _ h2

/-- If no candidate strictly beats the incoming best, the scan returns the
incoming best with winner index `N - 1`. -/
theorem selectWinner_of_none (c : ℕ → ℤ) (N : ℕ) (b : ℤ)
    (h : ∀ j, j < N → b ≤ c j) :
    selectWinner c N b = (b, N - 1) := by
  rcases selectScan_spec c N b (N - 1) with ⟨_, heq⟩ | ⟨⟨j0, hj0, hj0lt⟩, _⟩
  · exact heq
  · exact absurd (h j0 hj0) (not_le_of_lt hj0lt)

/-- Either the scan returns its input pair (winner `N - 1`), or the returned
winner's candidate cost equals the returned best cost, strictly below the
incoming best. -/
theorem selectWinner_cases (c : ℕ → ℤ) (N : ℕ) (b : ℤ) :
    selectWinner c N b = (b, N - 1) ∨
    (c (selectWinner c N b).2 = (selectWinner c N b).1 ∧
      (selectWinner c N b).1 < b ∧ (selectWinner c N b).2 < N) := by
  rcases selectScan_spec c N b (N - 1) with ⟨_, heq⟩ | ⟨_, h2, h3, h4, _, _⟩
  · exact Or.inl heq
  · exact Or.inr ⟨h3, h4, h2⟩

/-- The winner index returned by the scan is a valid pool index. -/
theorem selectWinner_snd_lt (c : ℕ → ℤ) (N : ℕ) (b : ℤ) (hN : 1 ≤ N) :
    (selectWinner c N b).2 < N := by
  rcases selectWinner_cases c N b with heq | ⟨_, _, h⟩
  · rw [heq]; exact Nat.sub_lt hN Nat.one_pos
  · exact h

/-! ### Step lemmas for the improvement loop -/

/-- The winner scan performed by iteration `k` from state `s`. -/
def iterScan (E : Externals) (N : ℕ) (k : ℕ) (s : LoopState) : ℤ × ℕ :=
  selectWinner (fun j => (candTrajAt E N k s j).total_return) N s.cBest

/-- A failed state is frozen: the early `return` skips the rest of the call. -/
theorem OptimizeIteration_of_failed (E : Externals) (N k : ℕ) (s : LoopState)
    (h : s.failed = true) : OptimizeIteration E N k s = s := by
  simp [OptimizeIteration, h]

/-- Field characterization of an iteration whose gradient solve fails:
the failure flag is set and pool, costs and winner are untouched. -/
theorem OptimizeIteration_of_bad_status (E : Externals) (N k : ℕ)
    (s : LoopState) (h : s.failed = false) (hs : (gradAt E s).1 ≠ 0) :
    (OptimizeIteration E N k s).failed = true ∧
    (OptimizeIteration E N k s).cands = s.cands ∧
    (OptimizeIteration E N k s).trajs = s.trajs ∧
    (OptimizeIteration E N k s).cBest = s.cBest ∧
    (OptimizeIteration E N k s).winner = s.winner := by
  simp [OptimizeIteration, h, hs]

/-- Field characterization of a successful iteration, in terms of the scan
result `iterScan`. -/
theorem OptimizeIteration_of_ok (E : Externals) (N k : ℕ) (s : LoopState)
    (h : s.failed = false) (hs : (gradAt E s).1 = 0) :
    (OptimizeIteration E N k s).failed = false ∧
    (OptimizeIteration E N k s).cBest = (iterScan E N k s).1 ∧
    (OptimizeIteration E N k s).winner = (iterScan E N k s).2 ∧
    (OptimizeIteration E N k s).cands = (fun i =>
      if i = 0 then candAt E N s (iterScan E N k s).2
      else if i < N then candAt E N s i else s.cands i) ∧
    (OptimizeIteration E N k s).trajs = (fun i =>
      if i = 0 then candTrajAt E N k s (iterScan E N k s).2
      else if i < N then candTrajAt E N k s i else s.trajs i) := by
  simp [OptimizeIteration, h, hs, iterScan, selectWinner]

/-- The zero-step (identity) candidate, slot `num_trajectory - 1`, carries the
working parameters unchanged. -/
theorem candAt_last (E : Externals) (N : ℕ) (s : LoopState) :
    candAt E N s (N - 1) = s.cands 0 := by
  simp [candAt, stepSizes, addScl_zero]

/-- Once the early return has fired, later loop indices leave the state
frozen. -/
theorem loopState_failed_step (E : Externals) (N : ℕ) (s0 : LoopState) (k : ℕ)
    (h : (loopState E N s0 k).failed = true) :
    (loopState E N s0 (k + 1)).failed = true := by
  show (OptimizeIteration E N k (loopState E N s0 k)).failed = true
  rw [OptimizeIteration_of_failed E N k _ h]
  exact h

/-- Failure is absorbing across the whole loop. -/
theorem loopState_failed_mono (E : Externals) (N : ℕ) (s0 : LoopState)
    {k m : ℕ} (hkm : k ≤ m) (h : (loopState E N s0 k).failed = true) :
    (loopState E N s0 m).failed = true := by
  induction m, hkm using Nat.le_induction with
  | base => exact h
  | succ m _ ih => exact loopState_failed_step E N s0 m ih

/-- If the loop has not failed after `k + 1` iterations, then it had not
failed after `k` and iteration `k`'s gradient solve returned status `0`. -/
theorem loopState_ok_prev (E : Externals) (N : ℕ) (s0 : LoopState) (k : ℕ)
    (h : (loopState E N s0 (k + 1)).failed = false) :
    (loopState E N s0 k).failed = false ∧
      (gradAt E (loopState E N s0 k)).1 = 0 := by
  cases hb : (loopState E N s0 k).failed with
  | true =>
    rw [loopState_failed_step E N s0 k hb] at h
    exact Bool.noConfusion h
  | false =>
    refine ⟨rfl, ?_⟩
    by_cases hg : (gradAt E (loopState E N s0 k)).1 = 0
    · exact hg
    · obtain ⟨h1, _⟩ := OptimizeIteration_of_bad_status E N k _ hb hg
      rw [show (loopState E N s0 (k + 1)).failed
            = (OptimizeIteration E N k (loopState E N s0 k)).failed from rfl,
        h1] at h
      exact Bool.noConfusion h

/-- If the loop has not failed after `m` iterations, it had not failed after
any earlier count. -/
theorem loopState_ok_of_le (E : Externals) (N : ℕ) (s0 : LoopState)
    {k m : ℕ} (hkm : k ≤ m) (h : (loopState E N s0 m).failed = false) :
    (loopState E N s0 k).failed = false := by
  cases hb : (loopState E N s0 k).failed with
  | false => rfl
  | true =>
    rw [loopState_failed_mono E N s0 hkm hb] at h
    exact Bool.noConfusion h

/-- `c_best` does not increase across one loop iteration. -/
theorem loopState_cBest_step (E : Externals) (N : ℕ) (s0 : LoopState)
    (k : ℕ) :
    (loopState E N s0 (k + 1)).cBest ≤ (loopState E N s0 k).cBest := by
  show (OptimizeIteration E N k (loopState E N s0 k)).cBest
    ≤ (loopState E N s0 k).cBest
  cases hb : (loopState E N s0 k).failed with
  | true => rw [OptimizeIteration_of_failed E N k _ hb]
  | false =>
    by_cases hg : (gradAt E (loopState E N s0 k)).1 = 0
    · obtain ⟨_, h2, _⟩ := OptimizeIteration_of_ok E N k _ hb hg
      rw [h2]
      exact selectWinner_fst_le _ _ _
    · obtain ⟨_, _, _, h4, _⟩ := OptimizeIteration_of_bad_status E N k _ hb hg
      rw [h4]

/-- `c_best` is monotonically non-increasing across loop iterations. -/
theorem loopState_cBest_mono (E : Externals) (N : ℕ) (s0 : LoopState)
    {k m : ℕ} (hkm : k ≤ m) :
    (loopState E N s0 m).cBest ≤ (loopState E N s0 k).cBest := by
  induction m, hkm using Nat.le_induction with
  | base => exact le_refl _
  | succ m _ ih => exact (loopState_cBest_step E N s0 m).trans ih

/-- With a worker-independent rollout collaborator, a candidate rollout is
the rollout of its parameters. -/
theorem candTrajAt_of_det (E : Externals)
    (hW : ∀ w p, E.rollout w p = E.rollout 0 p) (N k : ℕ) (s : LoopState)
    (j : ℕ) : candTrajAt E N k s j = E.rollout 0 (candAt E N s j) := by
  rw [candTrajAt, hW]

/-- Invariant: as long as the loop has not failed, re-rolling the working
slot's parameters costs no more than the running best cost (the working slot
always holds the parameters of the best trajectory found so far). -/
theorem loopState_cands0_inv (E : Externals) (N : ℕ) (s0 : LoopState)
    (hW : ∀ w p, E.rollout w p = E.rollout 0 p)
    (hinit : (E.rollout 0 (s0.cands 0)).total_return ≤ s0.cBest) :
    ∀ k, (loopState E N s0 k).failed = false →
      (E.rollout 0 ((loopState E N s0 k).cands 0)).total_return
        ≤ (loopState E N s0 k).cBest := by
  intro k
  induction k with
  | zero => exact fun _ => hinit
  | succ k ih =>
    intro h
    obtain ⟨hb, hg⟩ := loopState_ok_prev E N s0 k h
    obtain ⟨_, h2, _, h4, _⟩ := OptimizeIteration_of_ok E N k _ hb hg
    have hstep : loopState E N s0 (k + 1)
        = OptimizeIteration E N k (loopState E N s0 k) := rfl
    have hc0 : (OptimizeIteration E N k (loopState E N s0 k)).cands 0
        = candAt E N (loopState E N s0 k)
            (iterScan E N k (loopState E N s0 k)).2 := by
      rw [h4]
      simp
    rw [hstep, h2, hc0]
    rcases selectWinner_cases
        (fun j => (candTrajAt E N k (loopState E N s0 k) j).total_return) N
        (loopState E N s0 k).cBest with heq | ⟨h3, _, _⟩
    · rw [show iterScan E N k (loopState E N s0 k)
          = ((loopState E N s0 k).cBest, N - 1) from heq]
      simpa [candAt_last] using ih hb
    · rw [← candTrajAt_of_det E hW N k (loopState E N s0 k)
        (iterScan E N k (loopState E N s0 k)).2]
      exact le_of_eq h3

/-- Invariant: after at least one successful iteration, the trajectory at the
current winner index costs no more than the running best cost. -/
theorem loopState_winner_traj_inv (E : Externals) (N : ℕ) (s0 : LoopState)
    (hW : ∀ w p, E.rollout w p = E.rollout 0 p)
    (hinit : (E.rollout 0 (s0.cands 0)).total_return ≤ s0.cBest)
    (hN : 1 ≤ N) (k : ℕ)
    (h : (loopState E N s0 (k + 1)).failed = false) :
    ((loopState E N s0 (k + 1)).trajs (loopState E N s0 (k + 1)).winner).total_return
      ≤ (loopState E N s0 (k + 1)).cBest := by
  obtain ⟨hb, hg⟩ := loopState_ok_prev E N s0 k h
  obtain ⟨_, h2, h3, _, h5⟩ := OptimizeIteration_of_ok E N k _ hb hg
  have hstep : loopState E N s0 (k + 1)
      = OptimizeIteration E N k (loopState E N s0 k) := rfl
  rw [hstep, h2, h3, h5]
  have hlt : (iterScan E N k (loopState E N s0 k)).2 < N :=
    selectWinner_snd_lt _ N _ hN
  have htraj : (fun i =>
      if i = 0 then candTrajAt E N k (loopState E N s0 k)
        (iterScan E N k (loopState E N s0 k)).2
      else if i < N then candTrajAt E N k (loopState E N s0 k) i
      else (loopState E N s0 k).trajs i)
      (iterScan E N k (loopState E N s0 k)).2
      = candTrajAt E N k (loopState E N s0 k)
        (iterScan E N k (loopState E N s0 k)).2 := by
    by_cases h0 : (iterScan E N k (loopState E N s0 k)).2 = 0
    · simp [h0]
    · simp [h0, hlt]
  rw [htraj]
  rcases selectWinner_cases
      (fun j => (candTrajAt E N k (loopState E N s0 k) j).total_return) N
      (loopState E N s0 k).cBest with heq | ⟨hc, _, _⟩
  · rw [show iterScan E N k (loopState E N s0 k)
        = ((loopState E N s0 k).cBest, N - 1) from heq]
    rw [candTrajAt_of_det E hW N k _ _, candAt_last]
    exact loopState_cands0_inv E N s0 hW hinit k hb
  · exact le_of_eq hc

/-- The winner scan of an iteration returns a valid pool index. -/
theorem iterScan_snd_lt (E : Externals) (N k : ℕ) (s : LoopState)
    (hN : 1 ≤ N) : (iterScan E N k s).2 < N :=
  selectWinner_snd_lt _ _ _ hN

/-- The initial running best cost is the nominal cost `c_prev`. -/
theorem initLoopState_cBest (E : Externals) (nom : List ℤ)
    (pc : ℕ → List ℤ) (pt : ℕ → Trajectory) (pw : ℕ) :
    (initLoopState E nom pc pt pw).cBest = cPrevOf E nom := rfl

/-- The initial working slot holds the resampled nominal parameters. -/
theorem initLoopState_cands0 (E : Externals) (nom : List ℤ)
    (pc : ℕ → List ℤ) (pt : ℕ → Trajectory) (pw : ℕ) :
    (initLoopState E nom pc pt pw).cands 0 = E.resample nom := rfl

/-- On the abort path, `OptimizePolicy` publishes nothing: the nominal policy
and the timing counter members keep their values from before the call. -/
theorem OptimizePolicy_of_failed_fields (E : Externals) (D : Durations)
    (mR nR kM : ℕ) (nom : List ℤ) (pc : ℕ → List ℤ) (pt : ℕ → Trajectory)
    (pw : ℕ) (pT : Timers)
    (hfail : (loopState E (min nR kM) (initLoopState E nom pc pt pw)
      mR).failed = true) :
    (OptimizePolicy E D mR nR kM nom pc pt pw pT).published = false ∧
    (OptimizePolicy E D mR nR kM nom pc pt pw pT).policy = nom ∧
    (OptimizePolicy E D mR nR kM nom pc pt pw pT).timers = pT := by
  simp [OptimizePolicy, hfail]

/-- On the successful path, `OptimizePolicy` publishes the final winner: the
winner index is forced to `num_trajectory - 1` when the best cost never
strictly improved on `c_prev`. -/
theorem OptimizePolicy_of_ok_fields (E : Externals) (D : Durations)
    (mR nR kM : ℕ) (nom : List ℤ) (pc : ℕ → List ℤ) (pt : ℕ → Trajectory)
    (pw : ℕ) (pT : Timers)
    (hok : (loopState E (min nR kM) (initLoopState E nom pc pt pw)
      mR).failed = false) :
    (OptimizePolicy E D mR nR kM nom pc pt pw pT).published = true ∧
    (OptimizePolicy E D mR nR kM nom pc pt pw pT).trajs
      = (loopState E (min nR kM) (initLoopState E nom pc pt pw) mR).trajs ∧
    (OptimizePolicy E D mR nR kM nom pc pt pw pT).winner
      = (if cPrevOf E nom
            ≤ (loopState E (min nR kM) (initLoopState E nom pc pt pw) mR).cBest
          then min nR kM - 1
          else (loopState E (min nR kM)
            (initLoopState E nom pc pt pw) mR).winner) ∧
    (OptimizePolicy E D mR nR kM nom pc pt pw pT).policy
      = (loopState E (min nR kM) (initLoopState E nom pc pt pw) mR).cands
          (if cPrevOf E nom
              ≤ (loopState E (min nR kM)
                (initLoopState E nom pc pt pw) mR).cBest
            then min nR kM - 1
            else (loopState E (min nR kM)
              (initLoopState E nom pc pt pw) mR).winner) := by
  simp [OptimizePolicy, hok, initLoopState_cBest]

/-- After a successful iteration, the last pool slot holds the zero-step
candidate: the working parameters entering the iteration. -/
theorem loopState_cands_last (E : Externals) (N : ℕ) (s0 : LoopState)
    (m : ℕ) (hN : 1 ≤ N)
    (h : (loopState E N s0 (m + 1)).failed = false) :
    (loopState E N s0 (m + 1)).cands (N - 1)
      = (loopState E N s0 m).cands 0 := by
  obtain ⟨hb, hg⟩ := loopState_ok_prev E N s0 m h
  obtain ⟨_, _, _, h4, _⟩ := OptimizeIteration_of_ok E N m _ hb hg
  have hstep : loopState E N s0 (m + 1)
      = OptimizeIteration E N m (loopState E N s0 m) := rfl
  rw [hstep, h4]
  by_cases h0 : N - 1 = 0
  · have hr : (iterScan E N m (loopState E N s0 m)).2 = 0 := by
      have := iterScan_snd_lt E N m (loopState E N s0 m) hN
      omega
    have hca := candAt_last E N (loopState E N s0 m)
    rw [h0] at hca
    rw [h0]
    simp [hr, hca]
  · have hlt : N - 1 < N := Nat.sub_lt hN Nat.one_pos
    simp only [if_neg h0, if_pos hlt, candAt_last]

/-- After a successful iteration, the trajectory of the last pool slot is the
rollout of the zero-step candidate of that iteration. -/
theorem loopState_trajs_last (E : Externals) (N : ℕ) (s0 : LoopState)
    (m : ℕ) (hN : 1 ≤ N)
    (h : (loopState E N s0 (m + 1)).failed = false) :
    (loopState E N s0 (m + 1)).trajs (N - 1)
      = candTrajAt E N m (loopState E N s0 m) (N - 1) := by
  obtain ⟨hb, hg⟩ := loopState_ok_prev E N s0 m h
  obtain ⟨_, _, _, _, h5⟩ := OptimizeIteration_of_ok E N m _ hb hg
  have hstep : loopState E N s0 (m + 1)
      = OptimizeIteration E N m (loopState E N s0 m) := rfl
  rw [hstep, h5]
  by_cases h0 : N - 1 = 0
  · have hr : (iterScan E N m (loopState E N s0 m)).2 = 0 := by
      have := iterScan_snd_lt E N m (loopState E N s0 m) hN
      omega
    rw [h0]
    simp [hr]
  · have hlt : N - 1 < N := Nat.sub_lt hN Nat.one_pos
    simp only [if_neg h0, if_pos hlt]

/-- If no candidate rollout of any executed iteration strictly improves on
the initial best cost, the working slot and the running best cost are fixed
through the whole loop. -/
theorem loopState_fixed_of_no_improvement (E : Externals) (N : ℕ)
    (s0 : LoopState) (M : ℕ)
    (hok : (loopState E N s0 M).failed = false)
    (hni : ∀ k, k < M → ∀ j, j < N →
      s0.cBest ≤ (candTrajAt E N k (loopState E N s0 k) j).total_return) :
    ∀ k, k ≤ M → (loopState E N s0 k).cands 0 = s0.cands 0 ∧
      (loopState E N s0 k).cBest = s0.cBest := by
  intro k
  induction k with
  | zero => exact fun _ => ⟨rfl, rfl⟩
  | succ k ih =>
    intro hkM
    obtain ⟨ih1, ih2⟩ := ih (Nat.le_of_succ_le hkM)
    have hok1 : (loopState E N s0 (k + 1)).failed = false :=
      loopState_ok_of_le E N s0 hkM hok
    obtain ⟨hb, hg⟩ := loopState_ok_prev E N s0 k hok1
    obtain ⟨_, h2, _, h4, _⟩ := OptimizeIteration_of_ok E N k _ hb hg
    have hscan : iterScan E N k (loopState E N s0 k)
        = ((loopState E N s0 k).cBest, N - 1) := by
      refine selectWinner_of_none _ _ _ ?_
      intro j hj
      rw [ih2]
      exact hni k (Nat.lt_of_succ_le hkM) j hj
    have hstep : loopState E N s0 (k + 1)
        = OptimizeIteration E N k (loopState E N s0 k) := rfl
    constructor
    · rw [hstep, h4, hscan]
      simp [candAt_last, ih1]
    · rw [hstep, h2, hscan, ih2]

/-! ### Claim C1: non-regression of the published policy -/

/-- C1.  Non-regression of the published policy: for every `OptimizePolicy`
call in which the gradient solve returns status 0 on all iterations (the loop
never aborts), the total return of the trajectory belonging to the finally
published winner is at most `c_prev`, the nominal trajectory's total return
recorded at the start of the call; and if no candidate rollout in the whole
improvement loop strictly improved on `c_prev`, the winner published into the
nominal policy is the zero-step (identity) candidate at index
`num_trajectory - 1`, whose parameters are exactly the resampled nominal
parameters.  Hypotheses: at least one configured candidate and at least one
loop iteration, and a rollout collaborator whose result does not depend on
the executing worker's scratch buffer (the determinism contract of §4.4). -/
theorem OptimizePolicy_non_regression (E : Externals) (D : Durations)
    (maxRollout numTrajReq kMax : ℕ) (nominal : List ℤ)
    (priorCands : ℕ → List ℤ) (priorTrajs : ℕ → Trajectory)
    (priorWinner : ℕ) (priorTimers : Timers)
    (hW : ∀ w p, E.rollout w p = E.rollout 0 p)
    (hN : 1 ≤ min numTrajReq kMax) (hMR : 1 ≤ maxRollout)
    (hok : (loopState E (min numTrajReq kMax)
      (initLoopState E nominal priorCands priorTrajs priorWinner)
      maxRollout).failed = false) :
    ((OptimizePolicy E D maxRollout numTrajReq kMax nominal priorCands
        priorTrajs priorWinner priorTimers).trajs
      (OptimizePolicy E D maxRollout numTrajReq kMax nominal priorCands
        priorTrajs priorWinner priorTimers).winner).total_return
      ≤ cPrevOf E nominal ∧
    ((∀ k, k < maxRollout → ∀ j, j < min numTrajReq kMax →
        cPrevOf E nominal ≤ (candTrajAt E (min numTrajReq kMax) k
          (loopState E (min numTrajReq kMax)
            (initLoopState E nominal priorCands priorTrajs priorWinner) k)
          j).total_return) →
      (OptimizePolicy E D maxRollout numTrajReq kMax nominal priorCands
        priorTrajs priorWinner priorTimers).winner = min numTrajReq kMax - 1 ∧
      (OptimizePolicy E D maxRollout numTrajReq kMax nominal priorCands
        priorTrajs priorWinner priorTimers).policy = E.resample nominal) := by
  set N := min numTrajReq kMax with hNdef
  set s0 := initLoopState E nominal priorCands priorTrajs priorWinner
    with hs0def
  obtain ⟨_, hTr, hWin, hPol⟩ :=
    OptimizePolicy_of_ok_fields E D maxRollout numTrajReq kMax nominal
      priorCands priorTrajs priorWinner priorTimers hok
  have hinit : (E.rollout 0 (s0.cands 0)).total_return ≤ s0.cBest :=
    le_of_eq rfl
  have hcb0 : s0.cBest = cPrevOf E nominal := rfl
  obtain ⟨m, hm⟩ : ∃ m, maxRollout = m + 1 := ⟨maxRollout - 1, by omega⟩
  subst hm
  have hmono : (loopState E N s0 (m + 1)).cBest ≤ cPrevOf E nominal := by
    rw [← hcb0]
    exact loopState_cBest_mono E N s0 (Nat.zero_le (m + 1))
  constructor
  · rw [hTr, hWin]
    by_cases hc : cPrevOf E nominal ≤ (loopState E N s0 (m + 1)).cBest
    · rw [if_pos hc]
      rw [loopState_trajs_last E N s0 m hN hok,
        candTrajAt_of_det E hW N m _ _, candAt_last]
      obtain ⟨hb, _⟩ := loopState_ok_prev E N s0 m hok
      refine (loopState_cands0_inv E N s0 hW hinit m hb).trans ?_
      rw [← hcb0]
      exact loopState_cBest_mono E N s0 (Nat.zero_le m)
    · rw [if_neg hc]
      exact (loopState_winner_traj_inv E N s0 hW hinit hN m hok).trans hmono
  · intro hni
    have hfix := loopState_fixed_of_no_improvement E N s0 (m + 1) hok
      (by
        intro k hk j hj
        rw [hcb0]
        exact hni k hk j hj)
    have hcfix : (loopState E N s0 (m + 1)).cBest = cPrevOf E nominal := by
      rw [(hfix (m + 1) le_rfl).2, hcb0]
    have hc : cPrevOf E nominal ≤ (loopState E N s0 (m + 1)).cBest :=
      le_of_eq hcfix.symm
    constructor
    · rw [hWin, if_pos hc]
    · rw [hPol, if_pos hc, loopState_cands_last E N s0 m hN hok,
        (hfix m (Nat.le_succ m)).1]
      exact initLoopState_cands0 E nominal priorCands priorTrajs priorWinner

/-! ### Claim C2: fail-soft abort -/

/-- C2.  Fail-soft abort: if the gradient solver returns a nonzero status on
any actually-executed iteration of the improvement loop, the call returns at
that point, publishes nothing, and the nominal policy remains exactly the
policy the call started from (no partial merge of the computed update
direction). -/
theorem OptimizePolicy_fail_soft (E : Externals) (D : Durations)
    (maxRollout numTrajReq kMax : ℕ) (nominal : List ℤ)
    (priorCands : ℕ → List ℤ) (priorTrajs : ℕ → Trajectory)
    (priorWinner : ℕ) (priorTimers : Timers)
    (hfail : ∃ k, k < maxRollout ∧
      (loopState E (min numTrajReq kMax)
        (initLoopState E nominal priorCands priorTrajs priorWinner)
        k).failed = false ∧
      (gradAt E (loopState E (min numTrajReq kMax)
        (initLoopState E nominal priorCands priorTrajs priorWinner) k)).1
        ≠ 0) :
    (OptimizePolicy E D maxRollout numTrajReq kMax nominal priorCands
      priorTrajs priorWinner priorTimers).published = false ∧
    (OptimizePolicy E D maxRollout numTrajReq kMax nominal priorCands
      priorTrajs priorWinner priorTimers).policy = nominal := by
  set N := min numTrajReq kMax with hNdef
  set s0 := initLoopState E nominal priorCands priorTrajs priorWinner
    with hs0def
  obtain ⟨k, hk, hb, hg⟩ := hfail
  have h1 : (loopState E N s0 (k + 1)).failed = true := by
    show (OptimizeIteration E N k (loopState E N s0 k)).failed = true
    exact (OptimizeIteration_of_bad_status E N k _ hb hg).1
  have h2 : (loopState E N s0 maxRollout).failed = true :=
    loopState_failed_mono E N s0 (by omega) h1
  obtain ⟨hp, hpol, _⟩ :=
    OptimizePolicy_of_failed_fields E D maxRollout numTrajReq kMax nominal
      priorCands priorTrajs priorWinner priorTimers h2
  exact ⟨hp, hpol⟩

/-! ### Claim C10: monotone running best cost -/

/-- C10.  Within one `OptimizePolicy` call, the running best cost `c_best`
starts at the nominal cost `c_prev`, is never reset between improvement-loop
iterations, and is monotonically non-increasing across iterations; a
candidate of a later iteration becomes the adopted winner only when its total
return is strictly below the best cost of every earlier iteration of the same
call. -/
theorem loopState_cBest_monotone_invariant (E : Externals) (N : ℕ)
    (nominal : List ℤ) (priorCands : ℕ → List ℤ)
    (priorTrajs : ℕ → Trajectory) (priorWinner : ℕ) :
    (loopState E N (initLoopState E nominal priorCands priorTrajs priorWinner)
        0).cBest = cPrevOf E nominal ∧
    (∀ k, (loopState E N
        (initLoopState E nominal priorCands priorTrajs priorWinner)
        (k + 1)).cBest
      ≤ (loopState E N
        (initLoopState E nominal priorCands priorTrajs priorWinner)
        k).cBest) ∧
    (∀ k j, j ≤ k →
      (loopState E N
        (initLoopState E nominal priorCands priorTrajs priorWinner)
        (k + 1)).cBest
        < (loopState E N
          (initLoopState E nominal priorCands priorTrajs priorWinner)
          k).cBest →
      ((loopState E N
          (initLoopState E nominal priorCands priorTrajs priorWinner)
          (k + 1)).trajs
        (loopState E N
          (initLoopState E nominal priorCands priorTrajs priorWinner)
          (k + 1)).winner).total_return
        < (loopState E N
          (initLoopState E nominal priorCands priorTrajs priorWinner)
          j).cBest) := by
  set s0 := initLoopState E nominal priorCands priorTrajs priorWinner
    with hs0def
  refine ⟨rfl, fun k => loopState_cBest_step E N s0 k, ?_⟩
  intro k j hjk hlt
  have hb : (loopState E N s0 k).failed = false := by
    cases hf : (loopState E N s0 k).failed with
    | false => rfl
    | true =>
      rw [show loopState E N s0 (k + 1)
          = OptimizeIteration E N k (loopState E N s0 k) from rfl,
        OptimizeIteration_of_failed E N k _ hf] at hlt
      exact absurd hlt (lt_irrefl _)
  have hg : (gradAt E (loopState E N s0 k)).1 = 0 := by
    by_cases hg : (gradAt E (loopState E N s0 k)).1 = 0
    · exact hg
    · obtain ⟨_, _, _, h4, _⟩ :=
        OptimizeIteration_of_bad_status E N k _ hb hg
      rw [show loopState E N s0 (k + 1)
          = OptimizeIteration E N k (loopState E N s0 k) from rfl, h4] at hlt
      exact absurd hlt (lt_irrefl _)
  obtain ⟨_, h2, h3, _, h5⟩ := OptimizeIteration_of_ok E N k _ hb hg
  have hstep : loopState E N s0 (k + 1)
      = OptimizeIteration E N k (loopState E N s0 k) := rfl
  rw [hstep, h2] at hlt
  rcases selectWinner_cases
      (fun j => (candTrajAt E N k (loopState E N s0 k) j).total_return) N
      (loopState E N s0 k).cBest with heq | ⟨hc, _, hr2⟩
  · rw [show iterScan E N k (loopState E N s0 k)
        = ((loopState E N s0 k).cBest, N - 1) from heq] at hlt
    exact absurd hlt (lt_irrefl _)
  · have htraj : (loopState E N s0 (k + 1)).trajs
        ((loopState E N s0 (k + 1)).winner)
        = candTrajAt E N k (loopState E N s0 k)
          (iterScan E N k (loopState E N s0 k)).2 := by
      rw [hstep, h3, h5]
      by_cases h0 : (iterScan E N k (loopState E N s0 k)).2 = 0
      · simp [h0]
      · have hr2a : (iterScan E N k (loopState E N s0 k)).2 < N := hr2
        simp [h0, hr2a]
    rw [htraj]
    calc (candTrajAt E N k (loopState E N s0 k)
        (iterScan E N k (loopState E N s0 k)).2).total_return
        = (iterScan E N k (loopState E N s0 k)).1 := hc
      _ < (loopState E N s0 k).cBest := hlt
      _ ≤ (loopState E N s0 j).cBest := loopState_cBest_mono E N s0 hjk

/-! ### Claim C3: winner selection and tie-breaking -/

/-- A concrete rollout collaborator whose candidate costs produce a tie
between the two improving candidates. -/
def exampleExtTie : Externals where
  resample := id
  rollout := fun _ p =>
    if p = [1] then { total_return := 3, payload := [] }
    else if p = [2] then { total_return := 3, payload := [] }
    else { total_return := 10, payload := [] }
  grad := fun _ _ => (0, [1])
  logStep := fun i => if i = 0 then 1 else 2
  assign := fun _ _ => 0

/-- The loop state entering the tie-break run: nominal parameters `[0]`,
empty prior pool. -/
def tieState0 : LoopState :=
  initLoopState exampleExtTie [0] (fun _ => [])
    (fun _ => { total_return := 0, payload := [] }) 0

/-- C3 counterexample.  With three candidates of costs `3, 3, 10` (indices
`0, 1, 2`) against running best `10`, the iteration selects winner index `1`,
although the candidates of minimal cost `3` are indices `0` and `1`: ties are
NOT resolved to the lowest-index candidate, refuting the claim's tie-breaking
sentence at this input. -/
theorem winner_tie_break_counterexample :
    (loopState exampleExtTie 3 tieState0 1).winner = 1 ∧
    (candTrajAt exampleExtTie 3 0 tieState0 0).total_return
      = (candTrajAt exampleExtTie 3 0 tieState0 1).total_return ∧
    (∀ j, j < 3 → (candTrajAt exampleExtTie 3 0 tieState0 1).total_return
      ≤ (candTrajAt exampleExtTie 3 0 tieState0 j).total_return) ∧
    ¬ (loopState exampleExtTie 3 tieState0 1).winner = 0 := by
  decide

/-- C3 amended.  In every executed improvement-loop iteration: if some
candidate's total return is strictly below the running best cost, the
selected winner is a candidate of minimal total return, the new best cost
equals that minimum, and among candidates of equal minimal cost the winner is
the HIGHEST-index (smallest step size) candidate; otherwise the winner is the
pool's last index `num_trajectory - 1` and the best cost is unchanged. -/
theorem OptimizeIteration_winner_selection (E : Externals) (N k : ℕ)
    (s : LoopState) (hb : s.failed = false) (hg : (gradAt E s).1 = 0) :
    ((∃ j, j < N ∧ (candTrajAt E N k s j).total_return < s.cBest) →
      ((OptimizeIteration E N k s).winner < N ∧
       (candTrajAt E N k s
         (OptimizeIteration E N k s).winner).total_return
         = (OptimizeIteration E N k s).cBest ∧
       (OptimizeIteration E N k s).cBest < s.cBest ∧
       (∀ j, j < N → (OptimizeIteration E N k s).cBest
         ≤ (candTrajAt E N k s j).total_return) ∧
       (∀ j, j < N → (candTrajAt E N k s j).total_return
           = (OptimizeIteration E N k s).cBest →
         j ≤ (OptimizeIteration E N k s).winner))) ∧
    ((∀ j, j < N → s.cBest ≤ (candTrajAt E N k s j).total_return) →
      (OptimizeIteration E N k s).winner = N - 1 ∧
      (OptimizeIteration E N k s).cBest = s.cBest) := by
  obtain ⟨_, h2, h3, _, _⟩ := OptimizeIteration_of_ok E N k s hb hg
  constructor
  · rintro ⟨j0, hj0, hj0lt⟩
    rcases selectScan_spec
        (fun j => (candTrajAt E N k s j).total_return) N s.cBest (N - 1)
      with ⟨hnone, _⟩ | ⟨_, hlt, hcw, hltb, hlb, hmax⟩
    · exact absurd hj0lt (hnone j0 hj0)
    · rw [h2, h3]
      exact ⟨hlt, hcw, hltb, hlb, hmax⟩
  · intro hnone
    rw [h2, h3]
    have heq := selectWinner_of_none
      (fun j => (candTrajAt E N k s j).total_return) N s.cBest hnone
    rw [show iterScan E N k s = (s.cBest, N - 1) from heq]
    exact ⟨rfl, rfl⟩

/-- Witness run for the amended winner-selection theorem: on the tie-break
instance, the improving branch applies and selects winner `1` with best cost
`3`. -/
theorem OptimizeIteration_winner_selection_witness :
    tieState0.failed = false ∧
    (gradAt exampleExtTie tieState0).1 = 0 ∧
    (0 < 3 ∧ (candTrajAt exampleExtTie 3 0 tieState0 0).total_return
      < tieState0.cBest) ∧
    (OptimizeIteration exampleExtTie 3 0 tieState0).winner < 3 ∧
    (OptimizeIteration exampleExtTie 3 0 tieState0).cBest
      < tieState0.cBest := by
  have h := OptimizeIteration_winner_selection exampleExtTie 3 0 tieState0
    (by decide) (by decide)
  obtain ⟨h1, _, h3, _, _⟩ := h.1 ⟨0, by decide, by decide⟩
  exact ⟨by decide, by decide, ⟨by decide, by decide⟩, h1, h3⟩

/-! ### Claims C2/C9 concrete aborting run, and claim C9 -/

/-- A gradient solver that always reports failure (nonzero status). -/
def failExt : Externals where
  resample := id
  rollout := fun _ _ => { total_return := 0, payload := [] }
  grad := fun _ _ => (1, [])
  logStep := fun _ => 1
  assign := fun _ _ => 0

/-- Concrete stage durations for the aborting run. -/
def exampleDur : Durations where
  durNominal := 5
  durModel := fun _ => 1
  durCost := fun _ => 1
  durGrad := fun _ => 1
  durRollouts := fun _ => 1
  durPolicyUpdate := 1

/-- Timing counters left by a previous call. -/
def priorTimersEx : Timers :=
  { nominalT := 7, modelDerivT := 7, costDerivT := 7, gradT := 7,
    rolloutsT := 7, policyUpdateT := 7 }

/-- C9 counterexample.  In a run whose first gradient solve fails, the call
publishes nothing and its local timer variables hold the completed stages'
durations (nominal 5, one model/cost/gradient stage each), yet the planner's
timing counter members still hold the previous call's values (7): the
counters do NOT reflect the stages completed before the abort, refuting the
claim at this input. -/
theorem abort_timers_counterexample :
    (OptimizePolicy failExt exampleDur 1 2 4 [0] (fun _ => [])
      (fun _ => { total_return := 0, payload := [] }) 0
      priorTimersEx).published = false ∧
    (OptimizePolicy failExt exampleDur 1 2 4 [0] (fun _ => [])
      (fun _ => { total_return := 0, payload := [] }) 0
      priorTimersEx).locals.nominalT = 5 ∧
    (OptimizePolicy failExt exampleDur 1 2 4 [0] (fun _ => [])
      (fun _ => { total_return := 0, payload := [] }) 0
      priorTimersEx).locals.modelDerivT = 1 ∧
    (OptimizePolicy failExt exampleDur 1 2 4 [0] (fun _ => [])
      (fun _ => { total_return := 0, payload := [] }) 0
      priorTimersEx).timers.nominalT = 7 ∧
    (OptimizePolicy failExt exampleDur 1 2 4 [0] (fun _ => [])
      (fun _ => { total_return := 0, payload := [] }) 0
      priorTimersEx).timers
      ≠ (OptimizePolicy failExt exampleDur 1 2 4 [0] (fun _ => [])
        (fun _ => { total_return := 0, payload := [] }) 0
        priorTimersEx).locals := by
  decide

/-- C9 amended.  When a gradient-solve failure aborts an `OptimizePolicy`
call mid-loop, the call publishes no policy update and leaves the planner's
per-stage timing counter members UNCHANGED at their previous-call values: the
timings of the stages completed before the abort are accumulated only in the
call's local variables and are discarded with the early return. -/
theorem OptimizePolicy_abort_preserves_timers (E : Externals) (D : Durations)
    (maxRollout numTrajReq kMax : ℕ) (nominal : List ℤ)
    (priorCands : ℕ → List ℤ) (priorTrajs : ℕ → Trajectory)
    (priorWinner : ℕ) (priorTimers : Timers)
    (hfail : (loopState E (min numTrajReq kMax)
      (initLoopState E nominal priorCands priorTrajs priorWinner)
      maxRollout).failed = true) :
    (OptimizePolicy E D maxRollout numTrajReq kMax nominal priorCands
      priorTrajs priorWinner priorTimers).published = false ∧
    (OptimizePolicy E D maxRollout numTrajReq kMax nominal priorCands
      priorTrajs priorWinner priorTimers).timers = priorTimers ∧
    (OptimizePolicy E D maxRollout numTrajReq kMax nominal priorCands
      priorTrajs priorWinner priorTimers).policy = nominal := by
  obtain ⟨h1, h2, h3⟩ := OptimizePolicy_of_failed_fields E D maxRollout
    numTrajReq kMax nominal priorCands priorTrajs priorWinner priorTimers
    hfail
  exact ⟨h1, h3, h2⟩

/-! ### Claim C8: single-threaded determinism floor -/

/-- The pool contents, winner and published policy of `OptimizePolicy` do not
depend on the measured stage durations or on the prior timing counters. -/
theorem OptimizePolicy_core_fields_indep (E : Externals) (D1 D2 : Durations)
    (mR nR kM : ℕ) (nom : List ℤ) (pc : ℕ → List ℤ) (pt : ℕ → Trajectory)
    (pw : ℕ) (pT1 pT2 : Timers) :
    (OptimizePolicy E D1 mR nR kM nom pc pt pw pT1).trajs
      = (OptimizePolicy E D2 mR nR kM nom pc pt pw pT2).trajs ∧
    (OptimizePolicy E D1 mR nR kM nom pc pt pw pT1).winner
      = (OptimizePolicy E D2 mR nR kM nom pc pt pw pT2).winner ∧
    (OptimizePolicy E D1 mR nR kM nom pc pt pw pT1).policy
      = (OptimizePolicy E D2 mR nR kM nom pc pt pw pT2).policy := by
  cases h : (loopState E (min nR kM) (initLoopState E nom pc pt pw)
      mR).failed with
  | true => simp [OptimizePolicy, h]
  | false => simp [OptimizePolicy, h]

/-- C8.  Single-threaded determinism floor: two `OptimizePolicy` calls with
identical inputs (same nominal policy, same prior pool, and collaborators
agreeing on resampling, rollout, gradient solve and step generation), where
each call's worker pool has a single worker (every rollout task is assigned
worker index `0`), produce identical winner trajectories and identical
published policies — independently of wall-clock stage durations and of the
scheduling functions themselves. -/
theorem OptimizePolicy_single_worker_determinism (E1 E2 : Externals)
    (D1 D2 : Durations) (maxRollout numTrajReq kMax : ℕ) (nominal : List ℤ)
    (priorCands : ℕ → List ℤ) (priorTrajs : ℕ → Trajectory)
    (priorWinner : ℕ) (pT1 pT2 : Timers)
    (hres : E1.resample = E2.resample) (hrol : E1.rollout = E2.rollout)
    (hgrad : E1.grad = E2.grad) (hstep : E1.logStep = E2.logStep)
    (ha1 : ∀ k i, E1.assign k i < 1) (ha2 : ∀ k i, E2.assign k i < 1) :
    (OptimizePolicy E1 D1 maxRollout numTrajReq kMax nominal priorCands
        priorTrajs priorWinner pT1).trajs
      (OptimizePolicy E1 D1 maxRollout numTrajReq kMax nominal priorCands
        priorTrajs priorWinner pT1).winner
      = (OptimizePolicy E2 D2 maxRollout numTrajReq kMax nominal priorCands
          priorTrajs priorWinner pT2).trajs
        (OptimizePolicy E2 D2 maxRollout numTrajReq kMax nominal priorCands
          priorTrajs priorWinner pT2).winner ∧
    (OptimizePolicy E1 D1 maxRollout numTrajReq kMax nominal priorCands
        priorTrajs priorWinner pT1).policy
      = (OptimizePolicy E2 D2 maxRollout numTrajReq kMax nominal priorCands
          priorTrajs priorWinner pT2).policy := by
  have hassign : E1.assign = E2.assign := by
    funext k i
    have h1 := ha1 k i
    have h2 := ha2 k i
    omega
  have hE : E1 = E2 := by
    cases E1
    cases E2
    simp only [Externals.mk.injEq]
    exact ⟨hres, hrol, hgrad, hstep, hassign⟩
  subst hE
  obtain ⟨ht, hw, hp⟩ := OptimizePolicy_core_fields_indep E1 D1 D2 maxRollout
    numTrajReq kMax nominal priorCands priorTrajs priorWinner pT1 pT2
  exact ⟨by rw [ht, hw], hp⟩

/-! ### Concrete witnesses -/

/-- Empty prior candidate pool. -/
def emptyCands : ℕ → List ℤ := fun _ => []

/-- A zeroed trajectory, the prior pool contents after `Reset`. -/
def zeroTraj : Trajectory := { total_return := 0, payload := [] }

/-- Zeroed prior trajectory pool. -/
def emptyTrajs : ℕ → Trajectory := fun _ => zeroTraj

/-- Alternative stage durations, for exercising timing-independence. -/
def exampleDur2 : Durations where
  durNominal := 100
  durModel := fun _ => 20
  durCost := fun _ => 30
  durGrad := fun _ => 40
  durRollouts := fun _ => 50
  durPolicyUpdate := 60

/-- Witness run for C1: the non-regression theorem applied to the tie-break
collaborator with three candidates and one iteration. -/
theorem OptimizePolicy_non_regression_witness :
    (1 ≤ min 3 4 ∧ 1 ≤ 1) ∧
    ((OptimizePolicy exampleExtTie exampleDur 1 3 4 [0] emptyCands
        emptyTrajs 0 priorTimersEx).trajs
      (OptimizePolicy exampleExtTie exampleDur 1 3 4 [0] emptyCands
        emptyTrajs 0 priorTimersEx).winner).total_return
      ≤ cPrevOf exampleExtTie [0] :=
  ⟨⟨by decide, by decide⟩,
    (OptimizePolicy_non_regression exampleExtTie exampleDur 1 3 4 [0]
      emptyCands emptyTrajs 0 priorTimersEx (fun _ _ => rfl) (by decide)
      (by decide) (by decide)).1⟩

/-- Witness run for C2: the fail-soft theorem applied to the failing gradient
solver; the input nominal policy `[5]` survives unchanged. -/
theorem OptimizePolicy_fail_soft_witness :
    (OptimizePolicy failExt exampleDur 1 2 4 [5] emptyCands emptyTrajs 0
      priorTimersEx).published = false ∧
    (OptimizePolicy failExt exampleDur 1 2 4 [5] emptyCands emptyTrajs 0
      priorTimersEx).policy = [5] :=
  OptimizePolicy_fail_soft failExt exampleDur 1 2 4 [5] emptyCands
    emptyTrajs 0 priorTimersEx ⟨0, by decide, by decide, by decide⟩

/-- Witness run for the amended C9: the aborting run leaves the prior timing
counters untouched and publishes nothing. -/
theorem OptimizePolicy_abort_preserves_timers_witness :
    (OptimizePolicy failExt exampleDur2 2 2 4 [3] emptyCands emptyTrajs 0
      priorTimersEx).published = false ∧
    (OptimizePolicy failExt exampleDur2 2 2 4 [3] emptyCands emptyTrajs 0
      priorTimersEx).timers = priorTimersEx :=
  have h := OptimizePolicy_abort_preserves_timers failExt exampleDur2 2 2 4
    [3] emptyCands emptyTrajs 0 priorTimersEx (by decide)
  ⟨h.1, h.2.1⟩

/-- Witness run for C10: on the tie-break instance, iteration 0 strictly
improves, and the adopted winner's return is strictly below the initial best
cost. -/
theorem loopState_cBest_monotone_invariant_witness :
    (loopState exampleExtTie 3
      (initLoopState exampleExtTie [0] emptyCands emptyTrajs 0) 0).cBest
      = cPrevOf exampleExtTie [0] ∧
    (loopState exampleExtTie 3
      (initLoopState exampleExtTie [0] emptyCands emptyTrajs 0) 1).cBest
      ≤ (loopState exampleExtTie 3
        (initLoopState exampleExtTie [0] emptyCands emptyTrajs 0) 0).cBest ∧
    ((loopState exampleExtTie 3
        (initLoopState exampleExtTie [0] emptyCands emptyTrajs 0) 1).trajs
      (loopState exampleExtTie 3
        (initLoopState exampleExtTie [0] emptyCands emptyTrajs 0)
        1).winner).total_return
      < (loopState exampleExtTie 3
        (initLoopState exampleExtTie [0] emptyCands emptyTrajs 0) 0).cBest :=
  have h := loopState_cBest_monotone_invariant exampleExtTie 3 [0]
    emptyCands emptyTrajs 0
  ⟨h.1, h.2.1 0, h.2.2 0 0 le_rfl (by decide)⟩

/-- Witness run for C8: the determinism theorem applied with two different
duration oracles and prior counters; winner trajectories coincide. -/
theorem OptimizePolicy_single_worker_determinism_witness :
    (OptimizePolicy exampleExtTie exampleDur 1 3 4 [0] emptyCands emptyTrajs
        0 priorTimersEx).trajs
      (OptimizePolicy exampleExtTie exampleDur 1 3 4 [0] emptyCands
        emptyTrajs 0 priorTimersEx).winner
      = (OptimizePolicy exampleExtTie exampleDur2 1 3 4 [0] emptyCands
          emptyTrajs 0 (Timers.mk 0 0 0 0 0 0)).trajs
        (OptimizePolicy exampleExtTie exampleDur2 1 3 4 [0] emptyCands
          emptyTrajs 0 (Timers.mk 0 0 0 0 0 0)).winner :=
  (OptimizePolicy_single_worker_determinism exampleExtTie exampleExtTie
    exampleDur exampleDur2 1 3 4 [0] emptyCands emptyTrajs 0 priorTimersEx
    (Timers.mk 0 0 0 0 0 0) rfl rfl rfl rfl (fun _ _ => Nat.one_pos)
    (fun _ _ => Nat.one_pos)).1

/-! ### Claim C4: the zero-step identity candidate and log-scale steps

`LogScale` lives in the repository's utilities, which are not among these
sources; it is modelled from the spec over `ℝ`. -/

/-- Modelled from the spec: `LogScale` (mjpc utilities; its code is not part
of these sources) generates `n` values on a logarithmic scale from `upper`
down to `lower`: the value at index `i` is
`exp (log upper + (i / (n - 1)) * (log lower - log upper))`, interpolating
the logarithm linearly between the end points. -/
noncomputable def LogScale (upper lower : ℝ) (n : ℕ) (i : ℕ) : ℝ :=
  Real.exp (Real.log upper +
    (i : ℝ) / ((n : ℝ) - 1) * (Real.log lower - Real.log upper))

/-- The improvement step sizes over `ℝ`: `LogScale(improvement_step, 1.0,
settings.min_step_size, num_trajectory - 1)` fills the first
`num_trajectory - 1` slots, then slot `num_trajectory - 1` is forced to
exactly `0.0` (planner.cc lines 274-276). -/
noncomputable def improvementStep (minStep : ℝ) (N : ℕ) (i : ℕ) : ℝ :=
  if i = N - 1 then 0 else LogScale 1 minStep (N - 1) i

/-- Every `LogScale` value is strictly positive (it is an exponential). -/
theorem LogScale_pos (upper lower : ℝ) (n i : ℕ) :
    0 < LogScale upper lower n i :=
  Real.exp_pos _

/-- C4.  Zero-step identity candidate: for every candidate count
`num_trajectory ≥ 1`, after step-size generation the last step size
`improvement_step[num_trajectory - 1]` is exactly `0.0`; every other pool
slot carries the strictly positive log-scale value generated from `1.0` down
to the configured minimum, so exactly one slot of the pool carries step size
`0.0`; and for `num_trajectory ≥ 2` the first step size is exactly `1.0`. -/
theorem improvementStep_zero_slot (minStep : ℝ) (N : ℕ) (_hN : 1 ≤ N) :
    improvementStep minStep N (N - 1) = 0 ∧
    (∀ i, i < N - 1 →
      improvementStep minStep N i = LogScale 1 minStep (N - 1) i ∧
      0 < improvementStep minStep N i) ∧
    (∀ i, i < N → improvementStep minStep N i = 0 → i = N - 1) ∧
    (2 ≤ N → improvementStep minStep N 0 = 1) := by
  refine ⟨by simp [improvementStep], ?_, ?_, ?_⟩
  · intro i hi
    have hne : i ≠ N - 1 := Nat.ne_of_lt hi
    rw [improvementStep, if_neg hne]
    exact ⟨rfl, LogScale_pos 1 minStep (N - 1) i⟩
  · intro i _ hz
    by_contra hne
    rw [improvementStep, if_neg hne] at hz
    exact absurd hz (ne_of_gt (LogScale_pos 1 minStep (N - 1) i))
  · intro h2
    have hne : (0 : ℕ) ≠ N - 1 := by omega
    rw [improvementStep, if_neg hne, LogScale]
    simp

/-- Witness run for C4 at the spec's example size: four candidates, minimum
step `1/100`; the last slot is `0`, an interior slot is strictly positive,
and the first is `1`. -/
theorem improvementStep_zero_slot_witness :
    (1 ≤ 4 ∧ 2 ≤ 4) ∧
    improvementStep (1 / 100 : ℝ) 4 3 = 0 ∧
    0 < improvementStep (1 / 100 : ℝ) 4 1 ∧
    improvementStep (1 / 100 : ℝ) 4 0 = 1 :=
  have h := improvementStep_zero_slot (1 / 100 : ℝ) 4 (by norm_num)
  ⟨⟨by norm_num, by norm_num⟩, h.1, (h.2.1 1 (by norm_num)).2,
    h.2.2.2 (by norm_num)⟩

/-! ### Claim C5: risk-sensitive cost transform

`Task::CostTerms` / `Task::CostValue` are not part of these sources (only
their test is); they are modelled from the spec (§4.5), with the quadratic
norm the repository's task test uses. -/

/-- The quadratic norm `0.5 * xᵀ x` (`NormType::kQuadratic`), the norm kind
exercised by the repository's task test. -/
noncomputable def QuadraticNorm (x : List ℝ) : ℝ :=
  (1 / 2) * (x.map (fun a => a * a)).sum

/-- Split the flat residual vector into per-norm-group blocks of sizes
`dim_norm_residual[i]` (the `shift` walk of the task-cost loops). -/
def groupSplit : List ℕ → List ℝ → List (List ℝ)
  | [], _ => []
  | d :: ds, r => r.take d :: groupSplit ds (r.drop d)

/-- Modelled from the spec: `Task::CostTerms` (not part of these sources)
returns the per-norm-group scalar costs `weight[i] * Norm(residual block i)`. -/
noncomputable def CostTerms (weights : List ℝ) (dims : List ℕ)
    (residual : List ℝ) : List ℝ :=
  (weights.zip (groupSplit dims residual)).map
    (fun wg => wg.1 * QuadraticNorm wg.2)

/-- Modelled from the spec: `Task::CostValue` (not part of these sources)
applies the risk transform `(exp (risk * c) - 1) / risk` to the summed cost
terms `c` when `risk ≠ 0`, and returns `c` itself through an explicit
special-case branch when `risk = 0`. -/
noncomputable def CostValue (weights : List ℝ) (dims : List ℕ) (risk : ℝ)
    (residual : List ℝ) : ℝ :=
  let c := (CostTerms weights dims residual).sum
  if risk = 0 then c else (Real.exp (risk * c) - 1) / risk

/-- C5.  Risk-sensitive cost transform with guarded division: for every
residual, `CostValue` returns `(exp (risk * Σterms) - 1) / risk` whenever the
risk parameter is nonzero, where `Σterms` is the sum of the per-norm-group
costs produced by `CostTerms`; and at `risk = 0` it returns exactly `Σterms`
through the explicit special-case branch, so the division never executes with
a zero divisor. -/
theorem CostValue_risk_transform (weights : List ℝ) (dims : List ℕ)
    (residual : List ℝ) :
    (∀ risk : ℝ, risk ≠ 0 →
      CostValue weights dims risk residual
        = (Real.exp (risk * (CostTerms weights dims residual).sum) - 1)
            / risk) ∧
    CostValue weights dims 0 residual
      = (CostTerms weights dims residual).sum := by
  constructor
  · intro risk h
    simp [CostValue, h]
  · simp [CostValue]

/-- Witness run for C5 at the task test's numbers: residual
`[1e-3, 2e-3, 3e-3, 4e-3]`, weights `[5, 0.1]`, two quadratic groups of
size 2; the `risk = 0` branch returns the exact term sum `1.375e-5 =
11/800000`, and the `risk = 0.2` branch returns the exponential transform. -/
theorem CostValue_risk_transform_witness :
    ((1 / 5 : ℝ) ≠ 0) ∧
    CostValue [5, 1 / 10] [2, 2] (1 / 5)
        [1 / 1000, 2 / 1000, 3 / 1000, 4 / 1000]
      = (Real.exp ((1 / 5) *
          (CostTerms [5, 1 / 10] [2, 2]
            [1 / 1000, 2 / 1000, 3 / 1000, 4 / 1000]).sum) - 1) / (1 / 5) ∧
    CostValue [5, 1 / 10] [2, 2] 0 [1 / 1000, 2 / 1000, 3 / 1000, 4 / 1000]
      = 11 / 800000 :=
  have h := CostValue_risk_transform [5, 1 / 10] [2, 2]
    [1 / 1000, 2 / 1000, 3 / 1000, 4 / 1000]
  ⟨by norm_num, h.1 (1 / 5) (by norm_num), by
    rw [h.2]
    norm_num [CostTerms, groupSplit, QuadraticNorm]⟩

/-! ### Claim C6: policy resampling spacing

`PowerSequence` is in the repository's utilities, not among these sources;
it is modelled from the spec ("optionally warped by a configurable power-law
time spacing"). -/

/-- The knot-time shift of `ResamplePolicy` (planner.cc lines 366-369):
`mju_max((horizon - 1) * timestep / (num_spline_points - 1), 1.0e-5)`. -/
noncomputable def timeShiftOf (horizon : ℕ) (timestep : ℝ)
    (numSpline : ℕ) : ℝ :=
  max (((horizon : ℝ) - 1) * timestep / ((numSpline : ℝ) - 1)) (1 / 100000)

/-- The scratch knot times of `ResamplePolicy` (planner.cc lines 372-377):
`nominal_time` starts at the planner time and advances by `time_shift` per
knot. -/
noncomputable def timesScratch (time shift : ℝ) : ℕ → ℝ
  | 0 => time
  | t + 1 => timesScratch time shift t + shift

/-- Modelled from the spec: `PowerSequence` (mjpc utilities; its code is not
part of these sources) warps the linear time sequence by the power law
`a * t^p + b` fitted through the end points `t0` and `t1`; with the default
exponent `p = 1` it reproduces the unwarped linear sequence. -/
noncomputable def PowerSequence (tstep t0 t1 p : ℝ) (i : ℕ) : ℝ :=
  let a := (t0 - t1) / (t0 ^ p - t1 ^ p)
  let b := t0 - a * t0 ^ p
  a * (t0 + (i : ℝ) * tstep) ^ p + b

/-- The resampled knot time at index `t` (planner.cc lines 386-388):
`PowerSequence(times, time_shift, times[0], times[num_spline_points - 1],
timestep_power, num_spline_points)`. -/
noncomputable def resampledKnotTime (time shift : ℝ) (numSpline : ℕ)
    (p : ℝ) (t : ℕ) : ℝ :=
  PowerSequence shift (timesScratch time shift 0)
    (timesScratch time shift (numSpline - 1)) p t

/-- Closed form of the scratch times: repeated addition of the shift. -/
theorem timesScratch_closed (time shift : ℝ) (t : ℕ) :
    timesScratch time shift t = time + (t : ℝ) * shift := by
  induction t with
  | zero => simp [timesScratch]
  | succ t ih =>
    rw [timesScratch, ih]
    push_cast
    ring

/-- The time shift is strictly positive: it is at least the floor `1e-5`. -/
theorem timeShiftOf_pos (horizon : ℕ) (timestep : ℝ) (numSpline : ℕ) :
    0 < timeShiftOf horizon timestep numSpline :=
  lt_of_lt_of_le (by norm_num) (le_max_right _ _)

/-- With the default exponent `1`, `PowerSequence` is the linear sequence. -/
theorem PowerSequence_one (tstep t0 t1 : ℝ) (h : t0 ≠ t1) (i : ℕ) :
    PowerSequence tstep t0 t1 1 i = t0 + (i : ℝ) * tstep := by
  rw [PowerSequence]
  simp only [Real.rpow_one]
  rw [div_self (sub_ne_zero.mpr h)]
  ring

/-- C6.  Policy resampling spacing: for spline knot count `k ≥ 2` and the
default power-law exponent `1.0`, the first resampled knot time equals the
current planner time, consecutive resampled knot times differ by exactly
`max((horizon - 1) * timestep / (k - 1), 1e-5)`, and the knot-time sequence
is strictly increasing. -/
theorem ResamplePolicy_spacing (horizon numSpline : ℕ) (timestep time : ℝ)
    (hk : 2 ≤ numSpline) :
    resampledKnotTime time (timeShiftOf horizon timestep numSpline)
      numSpline 1 0 = time ∧
    (∀ t, resampledKnotTime time (timeShiftOf horizon timestep numSpline)
        numSpline 1 (t + 1)
      - resampledKnotTime time (timeShiftOf horizon timestep numSpline)
        numSpline 1 t
      = timeShiftOf horizon timestep numSpline) ∧
    (∀ t, resampledKnotTime time (timeShiftOf horizon timestep numSpline)
        numSpline 1 t
      < resampledKnotTime time (timeShiftOf horizon timestep numSpline)
        numSpline 1 (t + 1)) := by
  have hpos := timeShiftOf_pos horizon timestep numSpline
  have hne : timesScratch time (timeShiftOf horizon timestep numSpline) 0
      ≠ timesScratch time (timeShiftOf horizon timestep numSpline)
        (numSpline - 1) := by
    rw [timesScratch_closed, timesScratch_closed]
    have h1 : (1 : ℝ) ≤ ((numSpline - 1 : ℕ) : ℝ) := by
      have : 1 ≤ numSpline - 1 := by omega
      exact_mod_cast this
    have : 0 < ((numSpline - 1 : ℕ) : ℝ)
        * timeShiftOf horizon timestep numSpline :=
      mul_pos (lt_of_lt_of_le one_pos h1) hpos
    intro hcontra
    simp only [Nat.cast_zero, zero_mul, add_zero] at hcontra
    nlinarith
  have hval : ∀ t, resampledKnotTime time
      (timeShiftOf horizon timestep numSpline) numSpline 1 t
      = time + (t : ℝ) * timeShiftOf horizon timestep numSpline := by
    intro t
    rw [resampledKnotTime, PowerSequence_one _ _ _ hne,
      timesScratch_closed]
    push_cast
    ring
  refine ⟨by rw [hval]; simp, fun t => by rw [hval, hval]; push_cast; ring,
    fun t => ?_⟩
  rw [hval, hval]
  have : (t : ℝ) * timeShiftOf horizon timestep numSpline
      < ((t : ℝ) + 1) * timeShiftOf horizon timestep numSpline := by
    nlinarith
  push_cast
  linarith

/-- Witness run for C6 at the spec's example: horizon 2, two knots, timestep
`0.1` gives shift exactly `0.1`, with the first knot at the current time and
the second one shift later. -/
theorem ResamplePolicy_spacing_witness :
    timeShiftOf 2 (1 / 10 : ℝ) 2 = 1 / 10 ∧ (2 ≤ 2) ∧
    resampledKnotTime 0 (timeShiftOf 2 (1 / 10 : ℝ) 2) 2 1 0 = 0 ∧
    resampledKnotTime 0 (timeShiftOf 2 (1 / 10 : ℝ) 2) 2 1 0
      < resampledKnotTime 0 (timeShiftOf 2 (1 / 10 : ℝ) 2) 2 1 1 :=
  have h := ResamplePolicy_spacing 2 2 (1 / 10 : ℝ) 0 (by norm_num)
  ⟨by
    rw [timeShiftOf]
    norm_num,
    by norm_num, h.1, h.2.2 0⟩

/-! ### Claim C7: the rollout barrier -/

namespace ThreadPoolModel

/-- The observable state of the worker pool during one `Rollouts` batch:
tasks scheduled but not yet finished, finished tasks of this batch, and the
pool's completion counter (`ThreadPool::GetCount`).  The `ThreadPool` itself
is external to these sources; this transition system is its contract from
§4.3/§6 of the spec. -/
structure PoolState where
  pending : ℕ
  completed : ℕ
  count : ℕ
deriving DecidableEq

/-- One worker finishes one scheduled task: `pending` decreases while
`completed` and the pool counter increase by exactly one — each completion is
counted once. -/
inductive PoolStep : PoolState → PoolState → Prop
  | finish (p c n : ℕ) : PoolStep ⟨p + 1, c, n⟩ ⟨p, c + 1, n + 1⟩

/-- Any interleaving of task completions, by however many (or few) workers
the pool has. -/
def PoolReach : PoolState → PoolState → Prop :=
  Relation.ReflTransGen PoolStep

/-- The pool state right after `Rollouts` scheduled its `N` candidate tasks,
the counter still holding `count_before = pool.GetCount()` (planner.cc lines
393-419). -/
def RolloutsSchedule (countBefore N : ℕ) : PoolState :=
  { pending := N, completed := 0, count := countBefore }

/-- The condition under which `pool.WaitCount(count_before + num_trajectory)`
unblocks the planning thread (planner.cc line 420). -/
def WaitCountDone (countBefore N : ℕ) (s : PoolState) : Prop :=
  countBefore + N ≤ s.count

/-- `pool.ResetCount()` (planner.cc line 421). -/
def ResetCount (s : PoolState) : PoolState :=
  { s with count := 0 }

/-- Counting invariant of the batch: the counter always equals
`count_before` plus the completions so far, and pending plus completed tasks
account for exactly the `N` scheduled ones. -/
theorem poolReach_invariant (countBefore N : ℕ) (s : PoolState)
    (h : PoolReach (RolloutsSchedule countBefore N) s) :
    s.count = countBefore + s.completed ∧ s.pending + s.completed = N := by
  induction h with
  | refl => simp [RolloutsSchedule]
  | tail _ hstep ih =>
    cases hstep with
    | finish p c n =>
      obtain ⟨ih1, ih2⟩ := ih
      simp only at ih1 ih2
      constructor
      · simp only
        omega
      · simp only
        omega

/-- C7.  Rollout barrier completeness: in every execution in which
`Rollouts` schedules `N` candidate tasks (on a pool with any number of
workers) and `WaitCount(count_before + N)` unblocks, all `N` scheduled tasks
have completed, none is pending or lost, the counter reached exactly
`count_before + N` (no completion counted twice), and the final
`ResetCount` zeroes the counter. -/
theorem Rollouts_barrier_complete (countBefore N : ℕ) (s : PoolState)
    (hreach : PoolReach (RolloutsSchedule countBefore N) s)
    (hwait : WaitCountDone countBefore N s) :
    s.completed = N ∧ s.pending = 0 ∧ s.count = countBefore + N ∧
    (ResetCount s).count = 0 := by
  obtain ⟨h1, h2⟩ := poolReach_invariant countBefore N s hreach
  rw [WaitCountDone] at hwait
  refine ⟨by omega, by omega, by omega, rfl⟩

/-- Witness trace for C7: two tasks drained one after the other (as a
single-worker pool must), after which the barrier condition holds and the
theorem reports both completions with the counter at `count_before + 2`. -/
theorem Rollouts_barrier_complete_witness :
    (RolloutsSchedule 5 2).pending = 2 ∧
    (PoolState.mk 0 2 7).completed = 2 ∧
    (PoolState.mk 0 2 7).pending = 0 ∧
    (PoolState.mk 0 2 7).count = 5 + 2 :=
  have h := Rollouts_barrier_complete 5 2 (PoolState.mk 0 2 7)
    (Relation.ReflTransGen.tail
      (Relation.ReflTransGen.tail Relation.ReflTransGen.refl
        (PoolStep.finish 1 0 5))
      (PoolStep.finish 0 1 6))
    (by rw [WaitCountDone])
  ⟨rfl, h.1, h.2.1, h.2.2.1⟩

end ThreadPoolModel

end Mjpc
